import Mathlib

/-!
Verification of the work-order lifecycle and quote-approval token protocol of
the taller-api repository. The definitions below are a shallow embedding of
the JavaScript source: `src/src/models/WorkOrder.js` (status transition
validator, changeStatus, post-save notification hook),
`src/src/models/Mechanic.js` (the Quote schema: token generation, validation,
redemption, JSON serialization) and `src/src/controllers/quoteController.js`
(approveQuote, rejectQuote, approveQuoteManual). Dates are modelled as
natural-number timestamps, object ids as naturals, and external effects
(email dispatch, database create failures) as explicit oracle parameters.
-/

namespace TallerApi

/-- The five work-order states of the `status` enum in WorkOrder.js. -/
inductive OrderStatus where
  | pendiente_asignacion
  | asignada
  | en_progreso
  | listo
  | entregado
deriving DecidableEq, Repr

/-- The string value each status has in the source enum. -/
def statusStr : OrderStatus → String
  | .pendiente_asignacion => "pendiente_asignacion"
  | .asignada => "asignada"
  | .en_progreso => "en_progreso"
  | .listo => "listo"
  | .entregado => "entregado"

/-- The fixed transition table in `validateStatusTransition` (WorkOrder.js
lines 160 to 166). -/
def transitions : OrderStatus → List OrderStatus
  | .pendiente_asignacion => [.asignada]
  | .asignada => [.en_progreso, .pendiente_asignacion]
  | .en_progreso => [.listo, .asignada]
  | .listo => [.entregado, .en_progreso]
  | .entregado => []

/-- The interpolated error string of WorkOrder.js line 173:
No se puede cambiar de "current" a "target". -/
def transitionErrorMsg (src tgt : OrderStatus) : String :=
  "No se puede cambiar de \"" ++ statusStr src ++ "\" a \"" ++ statusStr tgt ++ "\""

/-- The vehicle snapshot subdocument (brand, model, year, licensePlate,
mileage). -/
structure Vehicle where
  brand : String
  model : String
  year : Nat
  licensePlate : String
  mileage : Nat
deriving DecidableEq, Repr

/-- One entry of `statusHistory` (statusHistorySchema in WorkOrder.js). -/
structure HistoryEntry where
  previousStatus : Option OrderStatus
  newStatus : OrderStatus
  changedBy : Nat
  changedAt : Nat
  notes : String
deriving DecidableEq, Repr

/-- One entry of the `notifications` log (notificationSchema in
WorkOrder.js); the string fields carry the enum values of the source
("listo", "email", "enviado", "fallido"). -/
structure NotificationEntry where
  ntype : String
  method : String
  status : String
  attempts : Nat
  sentAt : Option Nat
  error : Option String
deriving DecidableEq, Repr

/-- A work-order document with the fields the lifecycle logic reads or
writes. -/
structure WorkOrder where
  id : Nat
  quoteId : Nat
  mechanicId : Option Nat
  vehicleSnapshot : Vehicle
  workDescription : String
  estimatedCost : Nat
  status : OrderStatus
  statusHistory : List HistoryEntry
  actualDelivery : Option Nat
  createdAt : Nat
  notifications : List NotificationEntry
  readyEmailSent : Bool
  readyEmailSentAt : Option Nat
deriving DecidableEq, Repr

/-- Result of `validateStatusTransition`: the source returns either
{valid: true} or {valid: false, error}. -/
inductive TransitionCheck where
  | ok
  | invalid (error : String)
deriving DecidableEq, Repr

/-- `workOrderSchema.methods.validateStatusTransition` (WorkOrder.js lines
159 to 186): table lookup first, then the assigned-mechanic guard for
en_progreso. -/
def validateStatusTransition (o : WorkOrder) (newStatus : OrderStatus) : TransitionCheck :=
  if newStatus ∉ transitions o.status then
    .invalid (transitionErrorMsg o.status newStatus)
  else if newStatus = .en_progreso ∧ o.mechanicId = none then
    .invalid "Debe asignar un mecánico antes de iniciar el trabajo"
  else
    .ok

/-- Observable behaviour of one `emailService.sendReadyNotification` call as
seen by the post-save hook: the promise resolves with {success: true},
resolves with {success: false, error} (sendWithRetry catches transport
errors and returns this after its retries), or throws (for example when the
client has no email address, emailService.js line 318). -/
inductive EmailOutcome where
  | resolvedSuccess
  | resolvedFailure (errMsg : String)
  | threw (msg : String)
deriving DecidableEq, Repr

/-- The notification entry pushed on the success path of the post-save hook
(WorkOrder.js lines 230 to 236). -/
def sentNotification (now : Nat) : NotificationEntry :=
  { ntype := "listo", method := "email", status := "enviado",
    attempts := 1, sentAt := some now, error := none }

/-- The notification entry pushed on the catch path of the post-save hook
(WorkOrder.js lines 243 to 249). -/
def failedNotification (msg : String) : NotificationEntry :=
  { ntype := "listo", method := "email", status := "fallido",
    attempts := 1, sentAt := none, error := some msg }

/-- The post-save hook of WorkOrder.js lines 220 to 255, run to a fixpoint.
The hook fires on every save of a document in status listo whose
readyEmailSent flag is false; each firing consumes one element of the
outcome oracle. When the awaited call does not throw the hook takes the
success branch (it never reads the returned success flag), sets the flag,
pushes an enviado entry and saves again; the inner save re-fires the hook
but the flag now blocks it. When the call throws, the catch branch pushes a
fallido entry and saves again; the flag is still false, so that inner save
fires the hook again, which is the recursive call. An empty oracle means no
further attempt is observed. -/
def runPostSave : List EmailOutcome → WorkOrder → Nat → WorkOrder
  | [], d, _ => d
  | o :: rest, d, now =>
    if d.status = .listo ∧ d.readyEmailSent = false then
      match o with
      | .threw msg =>
          runPostSave rest
            { d with notifications := d.notifications ++ [failedNotification msg] } now
      | _ =>
          { d with readyEmailSent := true, readyEmailSentAt := some now,
                   notifications := d.notifications ++ [sentNotification now] }
    else d

/-- `workOrderSchema.methods.changeStatus` (WorkOrder.js lines 189 to 217)
followed by the save it awaits: validate, set the status, push one history
entry, stamp actualDelivery when the target is entregado, then persist.
Persisting enforces the schema bound of 500 characters on the history note
(statusHistorySchema maxlength) and then runs the post-save hook. An
`error` result models the thrown exception; the stored document is then
unchanged. -/
def changeStatus (o : WorkOrder) (newStatus : OrderStatus) (changedBy : Nat)
    (notes : String) (now : Nat) (emails : List EmailOutcome) : Except String WorkOrder :=
  match validateStatusTransition o newStatus with
  | .invalid e => .error e
  | .ok =>
    let o1 := { o with
      status := newStatus,
      statusHistory := o.statusHistory ++
        [{ previousStatus := some o.status, newStatus := newStatus,
           changedBy := changedBy, changedAt := now, notes := notes }] }
    let o2 := if newStatus = .entregado then { o1 with actualDelivery := some now } else o1
    if notes.length > 500 then .error "Notas no pueden exceder 500 caracteres"
    else .ok (runPostSave emails o2 now)

/-- The stored document after a `changeStatus` call: the new document on
success, the unchanged original when the call threw. -/
def changeStatusPersisted (o : WorkOrder) (newStatus : OrderStatus) (changedBy : Nat)
    (notes : String) (now : Nat) (emails : List EmailOutcome) : WorkOrder :=
  match changeStatus o newStatus changedBy notes now emails with
  | .ok o2 => o2
  | .error _ => o

/-- The three quote states of the `status` enum in the Quote schema. -/
inductive QuoteStatus where
  | pending
  | approved
  | rejected
deriving DecidableEq, Repr

/-- The `type` enum of an approval token. -/
inductive TokenType where
  | approve
  | reject
deriving DecidableEq, Repr

/-- One element of `approvalTokens` (approvalTokenSchema in the Quote
model). -/
structure ApprovalToken where
  token : String
  type : TokenType
  used : Bool
  usedAt : Option Nat
  ipAddress : Option String
  userAgent : Option String
deriving DecidableEq, Repr

/-- A quote document with the fields the approval workflow reads or
writes. -/
structure Quote where
  id : Nat
  clientId : Nat
  vehicle : Vehicle
  description : String
  proposedWork : String
  estimatedCost : Nat
  validUntil : Nat
  status : QuoteStatus
  approvalTokens : List ApprovalToken
  workOrderId : Option Nat
deriving DecidableEq, Repr

/-- Result of `validateToken`: the source returns {valid: false, error} or
{valid: true, type, tokenObj}. -/
inductive TokenCheck where
  | invalid (error : String)
  | valid (type : TokenType)
deriving DecidableEq, Repr

/-- `quoteSchema.methods.validateToken` (Quote model lines 333 to 353): pure
lookup and checks in source order, no mutation. `now` is the current date
the source obtains with new Date(). -/
def validateToken (q : Quote) (tok : String) (now : Nat) : TokenCheck :=
  match q.approvalTokens.find? (fun t => t.token == tok) with
  | none => .invalid "Token inválido"
  | some t =>
    if t.used then .invalid "Token ya fue utilizado"
    else if q.validUntil < now then .invalid "Token expirado"
    else if ¬ q.status = .pending then .invalid "Presupuesto ya fue procesado"
    else .valid t.type

/-- One token after the redemption pass of `useToken`: the presented token
records the redemption timestamp, source IP and user agent; every other
token is marked used with the same timestamp. Token strings within a quote
are distinct (uuid v4 values under a unique index), so mapping this over
the list matches the source, which mutates the found token object and every
token whose string differs from the presented one. -/
def burnToken (tok : String) (now : Nat) (ip ua : String) (t : ApprovalToken) : ApprovalToken :=
  if t.token == tok then
    { t with used := true, usedAt := some now, ipAddress := some ip, userAgent := some ua }
  else
    { t with used := true, usedAt := some now }

/-- `quoteSchema.methods.useToken` (Quote model lines 356 to 375): if the
presented token is found, burn the whole token set and save; otherwise do
nothing. -/
def useToken (q : Quote) (tok : String) (now : Nat) (ip ua : String) : Quote :=
  match q.approvalTokens.find? (fun t => t.token == tok) with
  | none => q
  | some _ =>
    { q with approvalTokens := q.approvalTokens.map (burnToken tok now ip ua) }

/-- `quoteSchema.methods.generateTokens` (Quote model lines 312 to 330): the
two fresh uuid strings are supplied by the caller as the random oracle; the
prior token list is replaced by the new unused pair. -/
def generateTokens (q : Quote) (approveTok rejectTok : String) : Quote :=
  { q with approvalTokens :=
      [ { token := approveTok, type := .approve, used := false,
          usedAt := none, ipAddress := none, userAgent := none },
        { token := rejectTok, type := .reject, used := false,
          usedAt := none, ipAddress := none, userAgent := none } ] }

/-- The work description the approval controllers build from the quote
(quoteController.js line 382). -/
def workDescriptionOf (q : Quote) : String :=
  q.description ++ "\n\nTrabajo propuesto:\n" ++ q.proposedWork

/-- The work-order document the approval controllers pass to
WorkOrder.create (quoteController.js lines 379 to 385): snapshot of the
quote vehicle, combined description, estimated cost, initial status
pendiente_asignacion. -/
def orderFromQuote (q : Quote) (newId : Nat) (now : Nat) : WorkOrder :=
  { id := newId, quoteId := q.id, mechanicId := none,
    vehicleSnapshot := q.vehicle,
    workDescription := workDescriptionOf q,
    estimatedCost := q.estimatedCost,
    status := .pendiente_asignacion,
    statusHistory := [], actualDelivery := none, createdAt := now,
    notifications := [], readyEmailSent := false, readyEmailSentAt := none }

/-- `WorkOrder.create` as called by the approval controllers. `dbOk` is the
oracle for transient persistence failure of this insert; the duplicate
check models the unique index on quoteId of the work-order schema. On
success the new document is appended to the stored collection. -/
def createWorkOrder (orders : List WorkOrder) (q : Quote) (newId : Nat) (now : Nat)
    (dbOk : Bool) : Except String (WorkOrder × List WorkOrder) :=
  if dbOk = false then .error "DB error"
  else if orders.any (fun o => o.quoteId == q.id) then
    .error "E11000 duplicate key error: quoteId"
  else
    let o := orderFromQuote q newId now
    .ok (o, orders ++ [o])

/-- `approveQuote` (quoteController.js lines 333 to 440) from the point
where the quote was found and a token was supplied: validate the token; on
failure answer the error page with nothing mutated. Otherwise redeem the
token (useToken saves), set and save status approved, then create the work
order and finally save the cross-link. Each save commits: when the create
call fails, the already saved quote is returned alongside the error. -/
def approveQuote (q : Quote) (orders : List WorkOrder) (tok : String) (now : Nat)
    (ip ua : String) (newId : Nat) (dbOk : Bool) :
    Except String Unit × Quote × List WorkOrder :=
  match validateToken q tok now with
  | .invalid e => (.error e, q, orders)
  | .valid _ =>
    match createWorkOrder orders { useToken q tok now ip ua with status := .approved }
        newId now dbOk with
    | .error e => (.error e, { useToken q tok now ip ua with status := .approved }, orders)
    | .ok (o, orders2) =>
      (.ok (), { useToken q tok now ip ua with
                   status := .approved, workOrderId := some o.id }, orders2)

/-- `rejectQuote` (quoteController.js lines 445 to 529) from the point where
the quote was found and a token was supplied: validate, and on success
redeem the token and save status rejected; no work order is created. -/
def rejectQuote (q : Quote) (tok : String) (now : Nat) (ip ua : String) :
    Except String Unit × Quote :=
  match validateToken q tok now with
  | .invalid e => (.error e, q)
  | .valid _ =>
    (.ok (), { useToken q tok now ip ua with status := .rejected })

/-- `approveQuoteManual` (quoteController.js lines 534 to 587) from the
point where the quote was found: reject non-pending quotes, otherwise save
status approved, create the work order, save the cross-link. As in the
token path, the status save commits before the create call. -/
def approveQuoteManual (q : Quote) (orders : List WorkOrder) (now : Nat) (newId : Nat)
    (dbOk : Bool) : Except String Unit × Quote × List WorkOrder :=
  if ¬ q.status = .pending then (.error "El presupuesto ya fue procesado", q, orders)
  else
    match createWorkOrder orders { q with status := .approved } newId now dbOk with
    | .error e => (.error e, { q with status := .approved }, orders)
    | .ok (o, orders2) =>
      (.ok (), { q with status := .approved, workOrderId := some o.id }, orders2)

/-- The shape of one serialized approval token: the toJSON transform of the
Quote schema (lines 408 to 423) exposes only type, used and usedAt. -/
structure TokenJSON where
  type : TokenType
  used : Bool
  usedAt : Option Nat
deriving DecidableEq, Repr

/-- The approvalTokens clause of the Quote toJSON transform: map each stored
token to its public projection. -/
def serializeApprovalTokens (ts : List ApprovalToken) : List TokenJSON :=
  ts.map (fun t => { type := t.type, used := t.used, usedAt := t.usedAt })

/-! Concrete sample documents used to instantiate witnesses and
counterexamples. -/

/-- A sample vehicle for concrete instances. -/
def sampleVehicle : Vehicle :=
  { brand := "Toyota", model := "Corolla", year := 2020,
    licensePlate := "ABCD12", mileage := 50000 }

/-- A work order with a chosen status and mechanic assignment; the other
fields are fixed sample values. -/
def baseOrder (s : OrderStatus) (mech : Option Nat) : WorkOrder :=
  { id := 1, quoteId := 7, mechanicId := mech, vehicleSnapshot := sampleVehicle,
    workDescription := "Cambio de frenos y revision general",
    estimatedCost := 100000, status := s, statusHistory := [],
    actualDelivery := none, createdAt := 10, notifications := [],
    readyEmailSent := false, readyEmailSentAt := none }

/-- An unused approve token with a fixed sample string. -/
def sampleApproveToken : ApprovalToken :=
  { token := "uuid-approve-1111", type := .approve, used := false,
    usedAt := none, ipAddress := none, userAgent := none }

/-- An unused reject token with a fixed sample string. -/
def sampleRejectToken : ApprovalToken :=
  { token := "uuid-reject-2222", type := .reject, used := false,
    usedAt := none, ipAddress := none, userAgent := none }

/-- A quote with a chosen status and token list; the other fields are fixed
sample values, with the validity deadline at time 1000. -/
def baseQuote (st : QuoteStatus) (toks : List ApprovalToken) : Quote :=
  { id := 7, clientId := 3, vehicle := sampleVehicle,
    description := "El motor hace un ruido extraño al acelerar en frio",
    proposedWork := "Revisión completa del motor y cambio de correa de distribución",
    estimatedCost := 100000, validUntil := 1000, status := st,
    approvalTokens := toks, workOrderId := none }

/-! Helper lemmas shared by the claim theorems. -/

/-- The post-save hook only touches the notification log and the
ready-email flag fields: status, history, delivery stamp, creation time and
the identifying and snapshot fields all pass through unchanged. -/
theorem runPostSave_preserves (outs : List EmailOutcome) (d : WorkOrder) (now : Nat) :
    (runPostSave outs d now).status = d.status ∧
    (runPostSave outs d now).statusHistory = d.statusHistory ∧
    (runPostSave outs d now).actualDelivery = d.actualDelivery ∧
    (runPostSave outs d now).createdAt = d.createdAt ∧
    (runPostSave outs d now).mechanicId = d.mechanicId := by
  induction outs generalizing d with
  | nil => simp [runPostSave]
  | cons o rest ih =>
    unfold runPostSave
    by_cases h : d.status = .listo ∧ d.readyEmailSent = false
    · simp only [h, and_self, if_true]
      cases o with
      | threw msg => exact ih _
      | resolvedSuccess => simp
      | resolvedFailure errMsg => simp
    · simp [h]

/-- Redeeming a token never changes the identity, vehicle data, cost,
status, deadline or text fields of the quote. -/
theorem useToken_preserves (q : Quote) (tok : String) (now : Nat) (ip ua : String) :
    (useToken q tok now ip ua).id = q.id ∧
    (useToken q tok now ip ua).vehicle = q.vehicle ∧
    (useToken q tok now ip ua).estimatedCost = q.estimatedCost ∧
    (useToken q tok now ip ua).status = q.status ∧
    (useToken q tok now ip ua).validUntil = q.validUntil ∧
    (useToken q tok now ip ua).description = q.description ∧
    (useToken q tok now ip ua).proposedWork = q.proposedWork ∧
    (useToken q tok now ip ua).workOrderId = q.workOrderId := by
  unfold useToken
  cases q.approvalTokens.find? (fun t => t.token == tok) <;> simp

example : validateStatusTransition (baseOrder .asignada none) .en_progreso =
    .invalid "Debe asignar un mecánico antes de iniciar el trabajo" := by decide

example : validateStatusTransition (baseOrder .pendiente_asignacion none) .en_progreso =
    .invalid (transitionErrorMsg .pendiente_asignacion .en_progreso) := by decide

example : validateStatusTransition (baseOrder .asignada (some 5)) .en_progreso = .ok := by decide

example : validateStatusTransition (baseOrder .asignada (some 5)) .listo =
    .invalid "No se puede cambiar de \"asignada\" a \"listo\"" := by decide

/-- C1: a transition is permitted exactly when the pair (current, target)
is in the fixed table — refuted: the pair (asignada, en_progreso) is in the
table, yet an order without an assigned mechanic is rejected. -/
theorem c1_counterexample :
    OrderStatus.en_progreso ∈ transitions (baseOrder .asignada none).status ∧
    validateStatusTransition (baseOrder .asignada none) .en_progreso ≠ .ok := by
  decide

/-- C1 (amended): a transition is permitted exactly when the pair is in the
fixed table and, when the target is en_progreso, a mechanic is assigned;
for every pair not in the table, changeStatus rejects the request with the
human-readable invalid-transition error and the stored order is left
unchanged. -/
theorem c1_transition_table (o : WorkOrder) (ns : OrderStatus) :
    (validateStatusTransition o ns = .ok ↔
      ns ∈ transitions o.status ∧ (ns = .en_progreso → o.mechanicId ≠ none)) ∧
    (ns ∉ transitions o.status →
      ∀ (cb : Nat) (notes : String) (now : Nat) (emails : List EmailOutcome),
        changeStatus o ns cb notes now emails = .error (transitionErrorMsg o.status ns) ∧
        changeStatusPersisted o ns cb notes now emails = o) := by
  have hv : ns ∉ transitions o.status →
      validateStatusTransition o ns = .invalid (transitionErrorMsg o.status ns) := by
    intro hmem
    unfold validateStatusTransition
    simp [hmem]
  constructor
  · unfold validateStatusTransition
    by_cases hmem : ns ∈ transitions o.status
    · rw [if_neg (not_not.mpr hmem)]
      by_cases hg : ns = .en_progreso ∧ o.mechanicId = none
      · rw [if_pos hg]
        constructor
        · intro h
          simp at h
        · rintro ⟨_, himp⟩
          exact absurd hg.2 (himp hg.1)
      · rw [if_neg hg]
        constructor
        · intro _
          exact ⟨hmem, fun hns hnone => hg ⟨hns, hnone⟩⟩
        · intro _
          rfl
    · rw [if_pos hmem]
      constructor
      · intro h
        simp at h
      · rintro ⟨hm, _⟩
        exact absurd hm hmem
  · intro hmem cb notes now emails
    have h := hv hmem
    constructor
    · unfold changeStatus
      rw [h]
    · unfold changeStatusPersisted changeStatus
      rw [h]

/-- C1 witness: at status listo the target asignada is outside the table,
so changeStatus fails with the invalid-transition message and the stored
order is unchanged; and the table direction of the equivalence holds at the
permitted pair (asignada, en_progreso) with a mechanic assigned. -/
theorem c1_witness :
    changeStatus (baseOrder .listo none) .asignada 1 "" 50 [] =
      .error (transitionErrorMsg .listo .asignada) ∧
    changeStatusPersisted (baseOrder .listo none) .asignada 1 "" 50 [] =
      baseOrder .listo none ∧
    validateStatusTransition (baseOrder .asignada (some 5)) .en_progreso = .ok := by
  refine ⟨?_, ?_, ?_⟩
  · exact ((c1_transition_table (baseOrder .listo none) .asignada).2 (by decide) 1 "" 50 []).1
  · exact ((c1_transition_table (baseOrder .listo none) .asignada).2 (by decide) 1 "" 50 []).2
  · exact (c1_transition_table (baseOrder .asignada (some 5)) .en_progreso).1.mpr
      ⟨by decide, by decide⟩

/-- C7: with no mechanic assigned every transition into en_progreso is
rejected with the missing-mechanic reason — refuted: from
pendiente_asignacion the table check fires first, so the rejection carries
the invalid-transition message instead. -/
theorem c7_counterexample :
    (baseOrder .pendiente_asignacion none).mechanicId = none ∧
    validateStatusTransition (baseOrder .pendiente_asignacion none) .en_progreso ≠
      .invalid "Debe asignar un mecánico antes de iniciar el trabajo" ∧
    validateStatusTransition (baseOrder .pendiente_asignacion none) .en_progreso =
      .invalid (transitionErrorMsg .pendiente_asignacion .en_progreso) := by
  decide

/-- C7 (amended): with no mechanic assigned every requested transition into
en_progreso is rejected and causes no mutation; the rejection carries the
missing-mechanic reason when the table permits the pair, and the
invalid-transition reason otherwise. -/
theorem c7_en_progreso_guard (o : WorkOrder) (hmech : o.mechanicId = none) :
    validateStatusTransition o .en_progreso =
      .invalid (if OrderStatus.en_progreso ∈ transitions o.status
        then "Debe asignar un mecánico antes de iniciar el trabajo"
        else transitionErrorMsg o.status .en_progreso) ∧
    (∀ (cb : Nat) (notes : String) (now : Nat) (emails : List EmailOutcome),
      changeStatusPersisted o .en_progreso cb notes now emails = o) := by
  have hval : validateStatusTransition o .en_progreso =
      .invalid (if OrderStatus.en_progreso ∈ transitions o.status
        then "Debe asignar un mecánico antes de iniciar el trabajo"
        else transitionErrorMsg o.status .en_progreso) := by
    unfold validateStatusTransition
    by_cases hmem : OrderStatus.en_progreso ∈ transitions o.status
    · simp [hmem, hmech]
    · simp [hmem]
  refine ⟨hval, ?_⟩
  intro cb notes now emails
  unfold changeStatusPersisted changeStatus
  rw [hval]

/-- C7 witness: a concrete order in asignada without a mechanic is rejected
with the missing-mechanic message and left unchanged. -/
theorem c7_witness :
    validateStatusTransition (baseOrder .asignada none) .en_progreso =
      .invalid "Debe asignar un mecánico antes de iniciar el trabajo" ∧
    changeStatusPersisted (baseOrder .asignada none) .en_progreso 1 "" 50 [] =
      baseOrder .asignada none := by
  have h := c7_en_progreso_guard (baseOrder .asignada none) (by decide)
  refine ⟨?_, h.2 1 "" 50 []⟩
  have h1 := h.1
  simpa using h1

/-- C6: changeStatus throws the validation reason and mutates nothing on
failure; on success it sets the new status and appends exactly one history
entry carrying previous status, new status, actor, server timestamp and the
note, which the persisted schema bounds at 500 characters; the status
change and its history entry are recorded together or not at all. -/
theorem c6_changeStatus_atomic (o : WorkOrder) (ns : OrderStatus) (cb : Nat)
    (notes : String) (now : Nat) (emails : List EmailOutcome) :
    (∀ e, validateStatusTransition o ns = .invalid e →
      changeStatus o ns cb notes now emails = .error e ∧
      changeStatusPersisted o ns cb notes now emails = o) ∧
    (∀ o2, changeStatus o ns cb notes now emails = .ok o2 →
      o2.status = ns ∧
      o2.statusHistory = o.statusHistory ++
        [{ previousStatus := some o.status, newStatus := ns, changedBy := cb,
           changedAt := now, notes := notes }] ∧
      o2.mechanicId = o.mechanicId ∧
      notes.length ≤ 500) := by
  constructor
  · intro e he
    constructor
    · unfold changeStatus
      rw [he]
    · unfold changeStatusPersisted changeStatus
      rw [he]
  · intro o2 h
    unfold changeStatus at h
    cases hv : validateStatusTransition o ns with
    | invalid e =>
      rw [hv] at h
      simp at h
    | ok =>
      rw [hv] at h
      by_cases hn : notes.length > 500
      · simp only [if_pos hn] at h
        exact absurd h (by simp)
      · simp only [if_neg hn] at h
        have h2 : runPostSave emails
            (if ns = .entregado then
              { o with
                status := ns,
                statusHistory := o.statusHistory ++
                  [{ previousStatus := some o.status, newStatus := ns, changedBy := cb,
                     changedAt := now, notes := notes }],
                actualDelivery := some now }
             else
              { o with
                status := ns,
                statusHistory := o.statusHistory ++
                  [{ previousStatus := some o.status, newStatus := ns, changedBy := cb,
                     changedAt := now, notes := notes }] }) now = o2 := by
          simpa using h
        obtain ⟨hs, hh, _, _, hm⟩ := runPostSave_preserves emails
          (if ns = .entregado then
            { o with
              status := ns,
              statusHistory := o.statusHistory ++
                [{ previousStatus := some o.status, newStatus := ns, changedBy := cb,
                   changedAt := now, notes := notes }],
              actualDelivery := some now }
           else
            { o with
              status := ns,
              statusHistory := o.statusHistory ++
                [{ previousStatus := some o.status, newStatus := ns, changedBy := cb,
                   changedAt := now, notes := notes }] }) now
        rw [h2] at hs hh hm
        refine ⟨?_, ?_, ?_, by omega⟩
        · rw [hs]
          by_cases he : ns = .entregado <;> simp [he]
        · rw [hh]
          by_cases he : ns = .entregado <;> simp [he]
        · rw [hm]
          by_cases he : ns = .entregado <;> simp [he]

/-- C6 witness: the invalid transition asignada to listo fails with the
table reason and leaves the order unchanged, while a valid transition
en_progreso to listo appends exactly its one history entry. -/
theorem c6_witness :
    changeStatus (baseOrder .asignada none) .listo 9 "nota" 50 [] =
      .error "No se puede cambiar de \"asignada\" a \"listo\"" ∧
    changeStatusPersisted (baseOrder .asignada none) .listo 9 "nota" 50 [] =
      baseOrder .asignada none ∧
    (changeStatusPersisted (baseOrder .en_progreso (some 5)) .listo 9 "nota" 50 []).statusHistory =
      (baseOrder .en_progreso (some 5)).statusHistory ++
        [{ previousStatus := some .en_progreso, newStatus := .listo, changedBy := 9,
           changedAt := 50, notes := "nota" }] := by
  have h1 := (c6_changeStatus_atomic (baseOrder .asignada none) .listo 9 "nota" 50 []).1
    "No se puede cambiar de \"asignada\" a \"listo\"" (by decide)
  have h2 := (c6_changeStatus_atomic (baseOrder .en_progreso (some 5)) .listo 9 "nota" 50 []).2
    (changeStatusPersisted (baseOrder .en_progreso (some 5)) .listo 9 "nota" 50 []) rfl
  exact ⟨h1.1, h1.2, h2.2.1⟩

/-- C9: a successful transition to entregado stamps actualDelivery with the
server time of the change, which is at or after the creation time whenever
the clock has not gone backwards since creation; no transition to any other
status changes actualDelivery. -/
theorem c9_actual_delivery (o : WorkOrder) (cb : Nat) (notes : String) (now : Nat)
    (emails : List EmailOutcome) :
    (∀ o2, changeStatus o .entregado cb notes now emails = .ok o2 →
      o2.actualDelivery = some now ∧
      (o.createdAt ≤ now → ∀ t, o2.actualDelivery = some t → o.createdAt ≤ t)) ∧
    (∀ ns, ns ≠ .entregado →
      ∀ o2, changeStatus o ns cb notes now emails = .ok o2 →
        o2.actualDelivery = o.actualDelivery) := by
  constructor
  · intro o2 h
    unfold changeStatus at h
    cases hv : validateStatusTransition o .entregado with
    | invalid e =>
      rw [hv] at h
      simp at h
    | ok =>
      rw [hv] at h
      by_cases hn : notes.length > 500
      · simp only [if_pos hn] at h
        exact absurd h (by simp)
      · simp only [if_neg hn] at h
        have h2 : runPostSave emails
            { o with
              status := .entregado,
              statusHistory := o.statusHistory ++
                [{ previousStatus := some o.status, newStatus := .entregado, changedBy := cb,
                   changedAt := now, notes := notes }],
              actualDelivery := some now } now = o2 := by
          simpa using h
        obtain ⟨_, _, ha, _, _⟩ := runPostSave_preserves emails
          { o with
            status := .entregado,
            statusHistory := o.statusHistory ++
              [{ previousStatus := some o.status, newStatus := .entregado, changedBy := cb,
                 changedAt := now, notes := notes }],
            actualDelivery := some now } now
        rw [h2] at ha
        refine ⟨ha, ?_⟩
        intro hc t ht
        rw [ha] at ht
        cases ht
        exact hc
  · intro ns hns o2 h
    unfold changeStatus at h
    cases hv : validateStatusTransition o ns with
    | invalid e =>
      rw [hv] at h
      simp at h
    | ok =>
      rw [hv] at h
      by_cases hn : notes.length > 500
      · simp only [if_pos hn] at h
        exact absurd h (by simp)
      · simp only [if_neg hn] at h
        simp only [if_neg hns] at h
        have h2 : runPostSave emails
            { o with
              status := ns,
              statusHistory := o.statusHistory ++
                [{ previousStatus := some o.status, newStatus := ns, changedBy := cb,
                   changedAt := now, notes := notes }] } now = o2 := by
          simpa using h
        obtain ⟨_, _, ha, _, _⟩ := runPostSave_preserves emails
          { o with
            status := ns,
            statusHistory := o.statusHistory ++
              [{ previousStatus := some o.status, newStatus := ns, changedBy := cb,
                 changedAt := now, notes := notes }] } now
        rw [h2] at ha
        exact ha

/-- C9 witness: delivering an order ready at time 100 stamps actualDelivery
to 100, at or after its creation time 10, and the transition listo to
en_progreso leaves actualDelivery untouched. -/
theorem c9_witness :
    (changeStatusPersisted (baseOrder .listo none) .entregado 1 "" 100 []).actualDelivery =
      some 100 ∧
    (10 : Nat) ≤ 100 ∧
    (changeStatusPersisted (baseOrder .listo (some 5)) .en_progreso 1 "" 100 []).actualDelivery =
      (baseOrder .listo (some 5)).actualDelivery := by
  have h1 := (c9_actual_delivery (baseOrder .listo none) 1 "" 100 []).1
    (changeStatusPersisted (baseOrder .listo none) .entregado 1 "" 100 []) rfl
  have h2 := (c9_actual_delivery (baseOrder .listo (some 5)) 1 "" 100 []).2
    .en_progreso (by decide)
    (changeStatusPersisted (baseOrder .listo (some 5)) .en_progreso 1 "" 100 []) rfl
  exact ⟨h1.1, h1.2 (by decide) 100 h1.1, h2⟩

/-- A pending quote carrying the freshly generated unused token pair. -/
def pendingQuote : Quote :=
  baseQuote .pending [sampleApproveToken, sampleRejectToken]

/-- C8: evaluation of the post-save hook at the failing inputs. When the
email dispatch resolves with success false (the transport failed after all
retries inside sendWithRetry), the hook still sets readyEmailSent and
records an enviado entry, because it never reads the returned success flag.
When the dispatch throws, the catch branch saves with the flag still false,
which re-fires the hook, so a single user-level save appends two fallido
entries for two consecutive throwing attempts. The status change itself is
never rolled back. -/
theorem c8_hook_ignores_result :
    (runPostSave [.resolvedFailure "Connection timeout"]
        (baseOrder .listo (some 5)) 100).readyEmailSent = true ∧
    (runPostSave [.resolvedFailure "Connection timeout"]
        (baseOrder .listo (some 5)) 100).notifications = [sentNotification 100] ∧
    (runPostSave [.threw "Cliente sin email válido", .threw "Cliente sin email válido"]
        (baseOrder .listo (some 5)) 100).notifications =
      [failedNotification "Cliente sin email válido",
       failedNotification "Cliente sin email válido"] ∧
    (runPostSave [.threw "Cliente sin email válido"]
        (baseOrder .listo (some 5)) 100).status = .listo := by
  decide

/-- C2: evaluation of both approval paths at the failing input where the
WorkOrder.create call fails. The token redemption and the quote-status
update have already been saved when the create call runs, so the committed
state has the quote approved (tokens burned on the token path) with no work
order and no cross-link: the approval is not all-or-nothing. -/
theorem c2_approval_not_atomic :
    (approveQuote pendingQuote [] "uuid-approve-1111" 50 "10.0.0.1" "Mozilla" 1 false).1 =
      .error "DB error" ∧
    (approveQuote pendingQuote [] "uuid-approve-1111" 50 "10.0.0.1" "Mozilla" 1 false).2.1.status =
      .approved ∧
    (approveQuote pendingQuote [] "uuid-approve-1111" 50 "10.0.0.1" "Mozilla" 1
        false).2.1.approvalTokens.all (fun t => t.used) = true ∧
    (approveQuote pendingQuote [] "uuid-approve-1111" 50 "10.0.0.1" "Mozilla" 1 false).2.2 = [] ∧
    (approveQuote pendingQuote [] "uuid-approve-1111" 50 "10.0.0.1" "Mozilla" 1
        false).2.1.workOrderId = none ∧
    (approveQuoteManual pendingQuote [] 50 1 false).1 = .error "DB error" ∧
    (approveQuoteManual pendingQuote [] 50 1 false).2.1.status = .approved ∧
    (approveQuoteManual pendingQuote [] 50 1 false).2.2 = [] := by
  exact ⟨rfl, rfl, rfl, rfl, rfl, rfl, rfl, rfl⟩

/-- Characterization of a successful WorkOrder.create call: the new
document is the payload built from the quote, it is appended to the
collection, and no stored order already referenced this quote. -/
theorem createWorkOrder_ok (orders : List WorkOrder) (q : Quote) (nid now : Nat)
    (dbOk : Bool) (o : WorkOrder) (orders2 : List WorkOrder)
    (h : createWorkOrder orders q nid now dbOk = .ok (o, orders2)) :
    o = orderFromQuote q nid now ∧ orders2 = orders ++ [o] ∧
    orders.any (fun x => x.quoteId == q.id) = false := by
  unfold createWorkOrder at h
  by_cases h1 : dbOk = false
  · rw [if_pos h1] at h
    simp at h
  · rw [if_neg h1] at h
    by_cases h2 : orders.any (fun x => x.quoteId == q.id) = true
    · rw [if_pos h2] at h
      simp at h
    · rw [if_neg h2] at h
      simp only [Except.ok.injEq, Prod.mk.injEq] at h
      refine ⟨h.1.symm, ?_, by simpa using h2⟩
      rw [← h.2, h.1]

/-- Characterization of a successful token-path approval: the final quote
is the token-burned quote saved as approved and linked to the new order,
and the new order document is appended. -/
theorem approveQuote_ok_shape (q : Quote) (orders : List WorkOrder) (tok : String)
    (now : Nat) (ip ua : String) (nid : Nat) (dbOk : Bool) (q2 : Quote)
    (orders2 : List WorkOrder)
    (h : approveQuote q orders tok now ip ua nid dbOk = (.ok (), q2, orders2)) :
    q2 = { useToken q tok now ip ua with status := .approved, workOrderId := some nid } ∧
    orders2 = orders ++
      [orderFromQuote { useToken q tok now ip ua with status := .approved } nid now] ∧
    orders.any (fun x => x.quoteId == q.id) = false := by
  unfold approveQuote at h
  cases hval : validateToken q tok now with
  | invalid e =>
    rw [hval] at h
    simp at h
  | valid ty =>
    rw [hval] at h
    cases hc : createWorkOrder orders { useToken q tok now ip ua with status := .approved }
        nid now dbOk with
    | error e =>
      rw [hc] at h
      simp at h
    | ok pr =>
      obtain ⟨o, orders3⟩ := pr
      rw [hc] at h
      simp only [Prod.mk.injEq] at h
      obtain ⟨ho, horders⟩ := h.2
      obtain ⟨hsh1, hsh2, hsh3⟩ := createWorkOrder_ok orders
        { useToken q tok now ip ua with status := .approved } nid now dbOk o orders3 hc
      have hid : o.id = nid := by rw [hsh1]; rfl
      have hqid : ({ useToken q tok now ip ua with status := .approved } : Quote).id = q.id :=
        (useToken_preserves q tok now ip ua).1
      refine ⟨?_, ?_, ?_⟩
      · rw [← ho, hid]
      · rw [← horders, hsh2, hsh1]
      · rw [← hqid]
        exact hsh3


/-- Characterization of a successful manual approval: the quote was
pending, it is saved as approved and linked to the new order, and the new
order document is appended. -/
theorem approveQuoteManual_ok_shape (q : Quote) (orders : List WorkOrder) (now : Nat)
    (nid : Nat) (dbOk : Bool) (q2 : Quote) (orders2 : List WorkOrder)
    (h : approveQuoteManual q orders now nid dbOk = (.ok (), q2, orders2)) :
    q.status = .pending ∧
    q2 = { q with status := .approved, workOrderId := some nid } ∧
    orders2 = orders ++ [orderFromQuote { q with status := .approved } nid now] ∧
    orders.any (fun x => x.quoteId == q.id) = false := by
  unfold approveQuoteManual at h
  by_cases hp : q.status = .pending
  · rw [if_neg (not_not.mpr hp)] at h
    cases hc : createWorkOrder orders { q with status := .approved } nid now dbOk with
    | error e =>
      rw [hc] at h
      simp at h
    | ok pr =>
      obtain ⟨o, orders3⟩ := pr
      rw [hc] at h
      simp only [Prod.mk.injEq] at h
      obtain ⟨ho, horders⟩ := h.2
      obtain ⟨hsh1, hsh2, hsh3⟩ := createWorkOrder_ok orders
        { q with status := .approved } nid now dbOk o orders3 hc
      have hid : o.id = nid := by rw [hsh1]; rfl
      have hqid : ({ q with status := .approved } : Quote).id = q.id := rfl
      refine ⟨hp, ?_, ?_, ?_⟩
      · rw [← ho, hid]
      · rw [← horders, hsh2, hsh1]
      · rw [← hqid]
        exact hsh3
  · rw [if_pos hp] at h
    simp at h

/-- The post-approval state the spec requires: quote approved and linked,
exactly one stored order references the quote, and that order is awaiting
assignment with the vehicle snapshot and estimated cost copied from the
quote. -/
def linkedOrderInvariant (q q2 : Quote) (orders2 : List WorkOrder) (nid : Nat) : Prop :=
  q2.status = .approved ∧
  q2.workOrderId = some nid ∧
  orders2.countP (fun o => o.quoteId == q.id) = 1 ∧
  ∀ o ∈ orders2, o.quoteId = q.id →
    o.id = nid ∧ o.status = .pendiente_asignacion ∧
    o.vehicleSnapshot = q.vehicle ∧ o.estimatedCost = q.estimatedCost

/-- After appending the order built from a quote variant agreeing with q on
id, vehicle and cost to a collection with no order for q, the counting and
field clauses of the linked-order invariant hold. -/
theorem appended_linkedOrders (q qv : Quote) (orders : List WorkOrder) (nid now : Nat)
    (hany : orders.any (fun x => x.quoteId == q.id) = false)
    (hid : qv.id = q.id) (hveh : qv.vehicle = q.vehicle)
    (hcost : qv.estimatedCost = q.estimatedCost) :
    (orders ++ [orderFromQuote qv nid now]).countP (fun o => o.quoteId == q.id) = 1 ∧
    ∀ o ∈ orders ++ [orderFromQuote qv nid now], o.quoteId = q.id →
      o.id = nid ∧ o.status = .pendiente_asignacion ∧
      o.vehicleSnapshot = q.vehicle ∧ o.estimatedCost = q.estimatedCost := by
  have hnone : ∀ x ∈ orders, ¬ x.quoteId = q.id := by
    intro x hx
    have hx2 := List.any_eq_false.mp hany x hx
    simpa using hx2
  constructor
  · rw [List.countP_append]
    have h0 : orders.countP (fun o => o.quoteId == q.id) = 0 := by
      rw [List.countP_eq_zero]
      intro x hx
      simpa using hnone x hx
    have h1 : (orderFromQuote qv nid now).quoteId = q.id := hid
    simp [h0, List.countP_cons, h1]
  · intro o ho hoq
    rcases List.mem_append.mp ho with hmem | hmem
    · exact absurd hoq (hnone o hmem)
    · have ho2 : o = orderFromQuote qv nid now := by simpa using hmem
      subst ho2
      exact ⟨rfl, rfl, hveh, hcost⟩

/-- C3: a successful approval of a pending quote, through the public token
path or the manual staff path, leaves the quote approved with exactly one
linked work order: the quote points to the order, the order points back to
the quote and is the only stored order for it, its status is
pendiente_asignacion, its vehicle snapshot equals the quote vehicle data at
approval time, and its estimated cost equals the quote estimated cost. -/
theorem c3_approval_creates_linked_order (q : Quote) (orders : List WorkOrder)
    (tok : String) (now : Nat) (ip ua : String) (nid : Nat) (dbOk : Bool) :
    (∀ q2 orders2, approveQuote q orders tok now ip ua nid dbOk = (.ok (), q2, orders2) →
      linkedOrderInvariant q q2 orders2 nid) ∧
    (∀ q2 orders2, approveQuoteManual q orders now nid dbOk = (.ok (), q2, orders2) →
      linkedOrderInvariant q q2 orders2 nid) := by
  constructor
  · intro q2 orders2 h
    obtain ⟨hq2, horders2, hany⟩ :=
      approveQuote_ok_shape q orders tok now ip ua nid dbOk q2 orders2 h
    obtain ⟨hid, hveh, hcost, _⟩ := useToken_preserves q tok now ip ua
    have happ := appended_linkedOrders q
      { useToken q tok now ip ua with status := .approved } orders nid now hany hid hveh hcost
    subst hq2
    subst horders2
    exact ⟨rfl, rfl, happ.1, happ.2⟩
  · intro q2 orders2 h
    obtain ⟨_, hq2, horders2, hany⟩ :=
      approveQuoteManual_ok_shape q orders now nid dbOk q2 orders2 h
    have happ := appended_linkedOrders q
      { q with status := .approved } orders nid now hany rfl rfl rfl
    subst hq2
    subst horders2
    exact ⟨rfl, rfl, happ.1, happ.2⟩

/-- C3 witness: approving the concrete pending quote with its approve token
over an empty collection yields the full linked-order invariant, matching
the spec scenario with estimatedCost 100000. -/
theorem c3_witness :
    linkedOrderInvariant pendingQuote
      (approveQuote pendingQuote [] "uuid-approve-1111" 50 "10.0.0.1" "Mozilla" 1 true).2.1
      (approveQuote pendingQuote [] "uuid-approve-1111" 50 "10.0.0.1" "Mozilla" 1 true).2.2
      1 := by
  exact (c3_approval_creates_linked_order pendingQuote [] "uuid-approve-1111" 50
    "10.0.0.1" "Mozilla" 1 true).1
    (approveQuote pendingQuote [] "uuid-approve-1111" 50 "10.0.0.1" "Mozilla" 1 true).2.1
    (approveQuote pendingQuote [] "uuid-approve-1111" 50 "10.0.0.1" "Mozilla" 1 true).2.2
    rfl

/-- C4: case analysis of validateToken matching the source check order:
unknown token, used token, expired deadline, non-pending quote, success
with the token tag; and whenever validation fails, both public redemption
endpoints answer the error and leave the quote and order collection
untouched (validateToken itself mutates nothing, being a pure function of
the quote). -/
theorem c4_validateToken_cases (q : Quote) (tok : String) (now : Nat) :
    (q.approvalTokens.find? (fun x => x.token == tok) = none →
      validateToken q tok now = .invalid "Token inválido") ∧
    (∀ t, q.approvalTokens.find? (fun x => x.token == tok) = some t →
      (t.used = true → validateToken q tok now = .invalid "Token ya fue utilizado") ∧
      (t.used = false → q.validUntil < now →
        validateToken q tok now = .invalid "Token expirado") ∧
      (t.used = false → ¬ q.validUntil < now → ¬ q.status = .pending →
        validateToken q tok now = .invalid "Presupuesto ya fue procesado") ∧
      (t.used = false → ¬ q.validUntil < now → q.status = .pending →
        validateToken q tok now = .valid t.type)) ∧
    (∀ e orders ip ua nid dbOk, validateToken q tok now = .invalid e →
      approveQuote q orders tok now ip ua nid dbOk = (.error e, q, orders) ∧
      rejectQuote q tok now ip ua = (.error e, q)) := by
  refine ⟨?_, ?_, ?_⟩
  · intro h
    unfold validateToken
    rw [h]
  · intro t ht
    refine ⟨?_, ?_, ?_, ?_⟩
    · intro hu
      unfold validateToken
      rw [ht]
      simp [hu]
    · intro hu hlt
      unfold validateToken
      rw [ht]
      simp [hu, hlt]
    · intro hu hlt hp
      unfold validateToken
      rw [ht]
      simp [hu, hlt, hp]
    · intro hu hlt hp
      unfold validateToken
      rw [ht]
      simp [hu, hlt, hp]
  · intro e orders ip ua nid dbOk hv
    constructor
    · unfold approveQuote
      rw [hv]
    · unfold rejectQuote
      rw [hv]

/-- A pending quote whose approve token was already redeemed, for the C4
witness. -/
def usedTokenQuote : Quote :=
  baseQuote .pending
    [{ sampleApproveToken with used := true, usedAt := some 20 }, sampleRejectToken]

/-- C4 witness: presenting the already-used approve token fails with the
token-used error and both endpoints leave the state unchanged. -/
theorem c4_witness :
    validateToken usedTokenQuote "uuid-approve-1111" 30 = .invalid "Token ya fue utilizado" ∧
    approveQuote usedTokenQuote [] "uuid-approve-1111" 30 "10.0.0.1" "Mozilla" 1 true =
      (.error "Token ya fue utilizado", usedTokenQuote, []) ∧
    rejectQuote usedTokenQuote "uuid-approve-1111" 30 "10.0.0.1" "Mozilla" =
      (.error "Token ya fue utilizado", usedTokenQuote) := by
  have h := c4_validateToken_cases usedTokenQuote "uuid-approve-1111" 30
  have h1 := (h.2.1 { sampleApproveToken with used := true, usedAt := some 20 } rfl).1 rfl
  have h2 := h.2.2 "Token ya fue utilizado" [] "10.0.0.1" "Mozilla" 1 true h1
  exact ⟨h1, h2.1, h2.2⟩

/-- Every token leaving the redemption pass is marked used with the
redemption timestamp and keeps its token string and tag. -/
theorem burnToken_fields (tok : String) (now : Nat) (ip ua : String) (t : ApprovalToken) :
    (burnToken tok now ip ua t).used = true ∧
    (burnToken tok now ip ua t).usedAt = some now ∧
    (burnToken tok now ip ua t).token = t.token ∧
    (burnToken tok now ip ua t).type = t.type := by
  unfold burnToken
  split <;> simp

/-- The presented token additionally records the source IP and user
agent. -/
theorem burnToken_presented (tok : String) (now : Nat) (ip ua : String)
    (t : ApprovalToken) (h : t.token = tok) :
    (burnToken tok now ip ua t).ipAddress = some ip ∧
    (burnToken tok now ip ua t).userAgent = some ua := by
  unfold burnToken
  simp [h]

/-- C5: redeeming either token of a generated pair marks the presented
token used with redemption timestamp, source IP and user agent, and
simultaneously marks the sibling token used with the same timestamp; any
second redemption attempt of either token string of the pair then fails
with the token-used error. -/
theorem c5_redemption_burns_both (q : Quote) (t1 t2 : ApprovalToken) (tok : String)
    (now : Nat) (ip ua : String)
    (htoks : q.approvalTokens = [t1, t2])
    (hne : t1.token ≠ t2.token)
    (hpres : tok = t1.token ∨ tok = t2.token) :
    (∀ t ∈ (useToken q tok now ip ua).approvalTokens,
      t.used = true ∧ t.usedAt = some now) ∧
    (∀ t ∈ (useToken q tok now ip ua).approvalTokens, t.token = tok →
      t.ipAddress = some ip ∧ t.userAgent = some ua) ∧
    (∀ tok2 now2, (tok2 = t1.token ∨ tok2 = t2.token) →
      validateToken (useToken q tok now ip ua) tok2 now2 =
        .invalid "Token ya fue utilizado") := by
  have hfind : q.approvalTokens.find? (fun x => x.token == tok) = some t1 ∨
      q.approvalTokens.find? (fun x => x.token == tok) = some t2 := by
    rw [htoks]
    rcases hpres with h | h
    · left
      subst h
      exact List.find?_cons_of_pos _ (by simp)
    · right
      subst h
      rw [List.find?_cons_of_neg _ (by simp [hne])]
      exact List.find?_cons_of_pos _ (by simp)
  have hres : useToken q tok now ip ua =
      { q with approvalTokens :=
          [burnToken tok now ip ua t1, burnToken tok now ip ua t2] } := by
    unfold useToken
    rcases hfind with h | h <;> rw [h] <;> rw [htoks] <;> simp
  refine ⟨?_, ?_, ?_⟩
  · intro t ht
    rw [hres] at ht
    simp only at ht
    rcases List.mem_pair.mp ht with rfl | rfl
    · exact ⟨(burnToken_fields tok now ip ua t1).1, (burnToken_fields tok now ip ua t1).2.1⟩
    · exact ⟨(burnToken_fields tok now ip ua t2).1, (burnToken_fields tok now ip ua t2).2.1⟩
  · intro t ht htok
    rw [hres] at ht
    simp only at ht
    rcases List.mem_pair.mp ht with rfl | rfl
    · refine burnToken_presented tok now ip ua t1 ?_
      rw [← (burnToken_fields tok now ip ua t1).2.2.1]
      exact htok
    · refine burnToken_presented tok now ip ua t2 ?_
      rw [← (burnToken_fields tok now ip ua t2).2.2.1]
      exact htok
  · intro tok2 now2 h2
    rw [hres]
    unfold validateToken
    have hb1 := burnToken_fields tok now ip ua t1
    have hb2 := burnToken_fields tok now ip ua t2
    rcases h2 with rfl | rfl
    · have hfind2 : List.find? (fun x => x.token == t1.token)
          [burnToken tok now ip ua t1, burnToken tok now ip ua t2] =
          some (burnToken tok now ip ua t1) :=
        List.find?_cons_of_pos _ (by simp [hb1.2.2.1])
      simp only [hfind2, hb1.1]
      simp
    · have hfind2 : List.find? (fun x => x.token == t2.token)
          [burnToken tok now ip ua t1, burnToken tok now ip ua t2] =
          some (burnToken tok now ip ua t2) := by
        rw [List.find?_cons_of_neg _ (by simp [hb1.2.2.1, hne])]
        exact List.find?_cons_of_pos _ (by simp [hb2.2.2.1])
      simp only [hfind2, hb2.1]
      simp

/-- C5 witness: after redeeming the reject token of the concrete pending
quote, a second redemption attempt of either token of the pair fails with
the token-used error. -/
theorem c5_witness :
    validateToken (useToken pendingQuote "uuid-reject-2222" 20 "1.1.1.1" "curl")
      "uuid-reject-2222" 21 = .invalid "Token ya fue utilizado" ∧
    validateToken (useToken pendingQuote "uuid-reject-2222" 20 "1.1.1.1" "curl")
      "uuid-approve-1111" 21 = .invalid "Token ya fue utilizado" := by
  have h := c5_redemption_burns_both pendingQuote sampleApproveToken sampleRejectToken
    "uuid-reject-2222" 20 "1.1.1.1" "curl" rfl (by decide) (Or.inr rfl)
  exact ⟨h.2.2 "uuid-reject-2222" 21 (Or.inr rfl),
         h.2.2 "uuid-approve-1111" 21 (Or.inl rfl)⟩

/-- C10: the JSON serialization of approval tokens exposes only the tag,
the used flag and the redemption timestamp; the opaque token string never
influences the output, so two quotes differing only in their token strings
serialize to identical approvalTokens. -/
theorem c10_token_strings_not_serialized (ts : List ApprovalToken)
    (f : ApprovalToken → String) :
    serializeApprovalTokens (ts.map (fun t => { t with token := f t })) =
      serializeApprovalTokens ts := by
  unfold serializeApprovalTokens
  rw [List.map_map]
  rfl

end TallerApi
